import Mathlib

/-!
Verification of the ADX table-mapping Terraform resource
(`adx/resource_adx_table_mapping.go`).

The file shallowly embeds the resource's pure logic: the mapping
expand/flatten codec, the resource-ID format and its parser, the three
management-command templates, and the control flow of the
Create/Update, Read and Delete entry points.  The Kusto management
client is treated as an external collaborator: its response is passed
in as an explicit argument.  Go's `json.Unmarshal` (from the standard
library `encoding/json`) is embedded as an executable JSON parser plus
a struct decoder specialised to `[]Mapping`.
-/

namespace Adx

/-- Models Go `strings.ToLower`.  The Go function performs Unicode case
mapping; the resource only ever lowercases the `kind` attribute, which
is ASCII (`"Json"`), so ASCII case mapping (`Char.toLower`) is an
adequate embedding. -/
def toLowerGo (s : String) : String := String.mk (s.data.map Char.toLower)

/-- Models Go `strings.Join(elems, sep)`. -/
def goJoin (elems : List String) (sep : String) : String :=
  match elems with
  | [] => ""
  | [a] => a
  | a :: b :: t => a ++ sep ++ goJoin (b :: t) sep

/-- One element of the Terraform `mapping` list attribute, i.e. the
`map[string]interface{}` block consumed by `expandTableMapping`.
`transform := none` models a block without the `"transform"` key (the
attribute is `Optional` in the schema); `some t` models a present key
with string value `t`. -/
structure MappingBlock where
  column : String
  path : String
  datatype : String
  transform : Option String
deriving DecidableEq

/-- The Go struct `Mapping` (JSON tags `column`, `path`, `datatype`,
`transform`), the unmarshal target of `flattenTableMapping`. -/
structure Mapping where
  Column : String
  Path : String
  DataType : String
  Transform : String
deriving DecidableEq

/-- The Go struct `TableMapping`, the row shape decoded from a `.show`
response.  `value.DateTime` is embedded as a string, which is all the
resource does with it (`d.Set("last_updated_on", ...)`). -/
structure TableMapping where
  Name : String
  Kind : String
  Mapping : String
  LastUpdatedOn : String
  Table : String
  Database : String
deriving DecidableEq

/-! ### JSON values and parsing (embedding of `encoding/json` input handling) -/

/-- JSON values at the fidelity `json.Unmarshal` into `[]Mapping` can
observe.  Number payloads are irrelevant to the decode (a number can
only produce an `UnmarshalTypeError`), so they are not retained. -/
inductive Json where
  | str (s : List Char) : Json
  | num : Json
  | bool (b : Bool) : Json
  | null : Json
  | arr (elems : List Json) : Json
  | obj (fields : List (List Char × Json)) : Json

/-- Skip JSON whitespace. -/
def skipWs : List Char → List Char
  | [] => []
  | c :: r => if c = ' ' ∨ c = '\t' ∨ c = '\n' ∨ c = '\r' then skipWs r else c :: r

def isHexDigit (c : Char) : Bool :=
  c.isDigit || ('a' ≤ c && c ≤ 'f') || ('A' ≤ c && c ≤ 'F')

def hexVal (c : Char) : Nat :=
  if c.isDigit then c.toNat - '0'.toNat
  else if 'a' ≤ c && c ≤ 'f' then c.toNat - 'a'.toNat + 10
  else c.toNat - 'A'.toNat + 10

/-- Single-character JSON escapes. -/
def escMap (c : Char) : Option Char :=
  if c = '"' then some '"'
  else if c = '\\' then some '\\'
  else if c = '/' then some '/'
  else if c = 'n' then some '\n'
  else if c = 't' then some '\t'
  else if c = 'r' then some '\r'
  else if c = 'b' then some (Char.ofNat 8)
  else if c = 'f' then some (Char.ofNat 12)
  else none

/-- Parse the body of a JSON string after the opening quote, returning
the decoded characters and the input following the closing quote.  As
in Go's scanner, a raw control character (code point below 0x20) inside
a string literal is a syntax error.  Surrogate pairs in `\u` escapes
are not recombined (Go substitutes U+FFFD for unpaired surrogates),
which no claim exercises. -/
def parseStringBody : List Char → Option (List Char × List Char)
  | [] => none
  | c :: r =>
    if c = '"' then some ([], r)
    else if c = '\\' then
      match r with
      | [] => none
      | e :: r2 =>
        if e = 'u' then
          match r2 with
          | h1 :: h2 :: h3 :: h4 :: r3 =>
            if isHexDigit h1 && isHexDigit h2 && isHexDigit h3 && isHexDigit h4 then
              (parseStringBody r3).map
                (fun p => (Char.ofNat (((hexVal h1 * 16 + hexVal h2) * 16 + hexVal h3) * 16 + hexVal h4) :: p.1, p.2))
            else none
          | _ => none
        else
          match escMap e with
          | some d => (parseStringBody r2).map (fun p => (d :: p.1, p.2))
          | none => none
    else if c.toNat < 32 then none
    else (parseStringBody r).map (fun p => (c :: p.1, p.2))

/-- `dropLit lit s` consumes the exact characters `lit` from the front
of `s`. -/
def dropLit : List Char → List Char → Option (List Char)
  | [], s => some s
  | _ :: _, [] => none
  | l :: ls, c :: cs => if c = l then dropLit ls cs else none

/-- Maximal run of decimal digits. -/
def munchDigits : List Char → (List Char × List Char)
  | [] => ([], [])
  | c :: r =>
    if c.isDigit then
      let p := munchDigits r
      (c :: p.1, p.2)
    else ([], c :: r)

/-- Optional exponent part of a JSON number (`e`/`E`, an optional sign,
then one or more digits); returns the remaining input. -/
def parseExpTail : List Char → Option (List Char)
  | [] => some []
  | c :: r =>
    if c = 'e' ∨ c = 'E' then
      let r2 :=
        match r with
        | c2 :: r3 => if c2 = '+' ∨ c2 = '-' then r3 else c2 :: r3
        | [] => []
      match munchDigits r2 with
      | ([], _) => none
      | (_ :: _, rest) => some rest
    else some (c :: r)

/-- Optional fraction part (`.` followed by one or more digits), then
an optional exponent part. -/
def parseFracTail : List Char → Option (List Char)
  | [] => some []
  | c :: r =>
    if c = '.' then
      match munchDigits r with
      | ([], _) => none
      | (_ :: _, rest) => parseExpTail rest
    else parseExpTail (c :: r)

/-- The JSON number grammar as in Go's scanner: an optional minus, then
`0` or a nonzero digit followed by more digits, then optional fraction
and exponent parts.  Returns the input following the number. -/
def parseNumber (s : List Char) : Option (List Char) :=
  let s1 :=
    match s with
    | c :: r => if c = '-' then r else c :: r
    | [] => []
  match s1 with
  | [] => none
  | c :: r =>
    if c = '0' then parseFracTail r
    else if c.isDigit then parseFracTail (munchDigits r).2
    else none

mutual

/-- Parse one JSON value.  The fuel argument bounds recursion into
nested values; the top-level caller supplies fuel that is ample for any
input of the given length. -/
def parseVal : Nat → List Char → Option (Json × List Char)
  | 0, _ => none
  | fuel + 1, s =>
    match skipWs s with
    | [] => none
    | c :: r =>
      if c = '"' then (parseStringBody r).map (fun p => (Json.str p.1, p.2))
      else if c = '[' then
        match skipWs r with
        | ']' :: r2 => some (Json.arr [], r2)
        | r2 => (parseElems fuel r2).map (fun p => (Json.arr p.1, p.2))
      else if c = '\x7b' then
        match skipWs r with
        | '\x7d' :: r2 => some (Json.obj [], r2)
        | r2 => (parseFields fuel r2).map (fun p => (Json.obj p.1, p.2))
      else if c = 'n' then (dropLit ['u', 'l', 'l'] r).map (fun r2 => (Json.null, r2))
      else if c = 't' then (dropLit ['r', 'u', 'e'] r).map (fun r2 => (Json.bool true, r2))
      else if c = 'f' then (dropLit ['a', 'l', 's', 'e'] r).map (fun r2 => (Json.bool false, r2))
      else
        match parseNumber (c :: r) with
        | none => none
        | some r2 => some (Json.num, r2)

/-- Parse the elements of a non-empty JSON array up to and including
the closing bracket. -/
def parseElems : Nat → List Char → Option (List Json × List Char)
  | 0, _ => none
  | fuel + 1, s =>
    match parseVal fuel s with
    | none => none
    | some (v, r) =>
      match skipWs r with
      | ',' :: r2 => (parseElems fuel r2).map (fun p => (v :: p.1, p.2))
      | ']' :: r2 => some ([v], r2)
      | _ => none

/-- Parse the members of a non-empty JSON object up to and including
the closing brace. -/
def parseFields : Nat → List Char → Option (List (List Char × Json) × List Char)
  | 0, _ => none
  | fuel + 1, s =>
    match skipWs s with
    | '"' :: r =>
      match parseStringBody r with
      | none => none
      | some (key, r2) =>
        match skipWs r2 with
        | ':' :: r3 =>
          match parseVal fuel r3 with
          | none => none
          | some (v, r4) =>
            match skipWs r4 with
            | ',' :: r5 => (parseFields fuel r5).map (fun p => ((key, v) :: p.1, p.2))
            | '\x7d' :: r5 => some ([(key, v)], r5)
            | _ => none
        | _ => none
    | _ => none

end

/-! ### Decoding JSON values into `[]Mapping` (embedding of `json.Unmarshal`) -/

/-- `encoding/json` matches object keys to struct fields
case-insensitively (exact matches are preferred, which coincides with
fold-matching here since the four tag names are pairwise distinct even
up to case). -/
def asciiFoldEq (a b : List Char) : Bool :=
  a.map Char.toLower == b.map Char.toLower

/-- Decode one object member into the `Mapping` struct, Go-style: a
string value sets the matched field; `null` is a no-op; any other value
leaves the field untouched and records an `UnmarshalTypeError`; unknown
keys are ignored; later duplicate keys overwrite earlier ones. -/
def setMappingField (acc : Mapping × Bool) (kv : List Char × Json) : Mapping × Bool :=
  if asciiFoldEq kv.1 ['c', 'o', 'l', 'u', 'm', 'n'] then
    match kv.2 with
    | Json.str s => ({ acc.1 with Column := String.mk s }, acc.2)
    | Json.null => acc
    | _ => (acc.1, true)
  else if asciiFoldEq kv.1 ['p', 'a', 't', 'h'] then
    match kv.2 with
    | Json.str s => ({ acc.1 with Path := String.mk s }, acc.2)
    | Json.null => acc
    | _ => (acc.1, true)
  else if asciiFoldEq kv.1 ['d', 'a', 't', 'a', 't', 'y', 'p', 'e'] then
    match kv.2 with
    | Json.str s => ({ acc.1 with DataType := String.mk s }, acc.2)
    | Json.null => acc
    | _ => (acc.1, true)
  else if asciiFoldEq kv.1 ['t', 'r', 'a', 'n', 's', 'f', 'o', 'r', 'm'] then
    match kv.2 with
    | Json.str s => ({ acc.1 with Transform := String.mk s }, acc.2)
    | Json.null => acc
    | _ => (acc.1, true)
  else acc

/-- Decode one JSON object into a `Mapping` (zero value `{"","","",""}`
for absent fields), with an error flag for type mismatches. -/
def decodeMappingObj (fields : List (List Char × Json)) : Mapping × Bool :=
  fields.foldl setMappingField (⟨"", "", "", ""⟩, false)

/-- Decode one array element into a `Mapping`, Go-style: a non-object
element leaves the slice slot at the zero value and records a type
error (`null` records none). -/
def decodeElem : Json → Mapping × Bool
  | Json.obj fields => decodeMappingObj fields
  | Json.null => (⟨"", "", "", ""⟩, false)
  | _ => (⟨"", "", "", ""⟩, true)

/-- Embedding of `json.Unmarshal(data, &v)` for `v : []Mapping`.
Returns `(sawError, v)`.  Mirrors `encoding/json`: syntactically
invalid input (including trailing garbage) fails validation before any
decoding, leaving `v` untouched (`nil`); valid JSON that is not an
array (other than `null`) is an `UnmarshalTypeError` that also leaves
`v` untouched; a valid array is decoded element-wise, recording but not
aborting on element-level type errors.  The fuel `11 * (length + 1)`
exceeds the recursion depth any input of this length can demand. -/
def jsonUnmarshalMappings (s : String) : Bool × List Mapping :=
  match parseVal (11 * (s.data.length + 1)) s.data with
  | none => (true, [])
  | some (v, rest) =>
    match skipWs rest with
    | [] =>
      match v with
      | Json.null => (false, [])
      | Json.arr elems =>
        (elems.any (fun j => (decodeElem j).2), elems.map (fun j => (decodeElem j).1))
      | _ => (true, [])
    | _ => (true, [])

/-! ### The mapping codec (`expandTableMapping` / `flattenTableMapping`) -/

/-- The per-entry body of `expandTableMapping`'s loop
(`resource_adx_table_mapping.go` lines 203-212): hand-built string
formatting, quoting `column`/`path`/`datatype` unconditionally and
appending `transform` only when the key holds a non-empty string. -/
def expandEntry (block : MappingBlock) : String :=
  let mapping := "\"column\":\"" ++ block.column ++ "\",\"path\":\"" ++ block.path
    ++ "\",\"datatype\":\"" ++ block.datatype ++ "\""
  let mapping :=
    match block.transform with
    | some t => if t.length ≠ 0 then mapping ++ ",\"transform\":\"" ++ t ++ "\"" else mapping
    | none => mapping
  "\x7b" ++ mapping ++ "\x7d"

/-- `expandTableMapping` (lines 197-215): empty list ↦ empty string;
otherwise the brace-wrapped entries joined with `","`.  Note that no
surrounding `[` `]` is produced here. -/
def expandTableMapping (input : List MappingBlock) : String :=
  if input.length = 0 then ""
  else goJoin (input.map expandEntry) ","

/-- `flattenTableMapping` (lines 217-235): empty string ↦ empty list;
otherwise `json.Unmarshal` into `[]Mapping` with the returned error
discarded (line 223 ignores it), then each decoded struct is re-emitted
as a block carrying all four keys. -/
def flattenTableMapping (input : String) : List MappingBlock :=
  if input.length = 0 then []
  else
    let r := jsonUnmarshalMappings input
    r.2.map (fun v => { column := v.Column, path := v.Path, datatype := v.DataType,
                        transform := some v.Transform })

/-! ### Resource IDs -/

/-- The parsed resource ID.  Field names follow their uses in
`resource_adx_table_mapping.go` (`id.TableName`, `id.Kind`, `id.Name`,
`id.DatabaseName`). -/
structure ADXTableMappingID where
  EndpointURI : String
  DatabaseName : String
  TableName : String
  Kind : String
  Name : String
deriving DecidableEq

/-- Split on the pipe character, keeping empty segments — the semantics
of Go `strings.Split(s, "|")`. -/
def splitPipe : List Char → List (List Char)
  | [] => [[]]
  | c :: r =>
    if c = '|' then [] :: splitPipe r
    else
      match splitPipe r with
      | [] => [[c]]
      | h :: t => (c :: h) :: t

/-- `strings.Split(s, "|")` on strings. -/
def splitPipeS (s : String) : List String := (splitPipe s.data).map String.mk

def idErrMsg (s : String) : String :=
  "unexpected format of ID (" ++ s ++ "), expected EndpointURI|DatabaseName|TableName|Kind|Name"

/-- Modelled from the spec: `parseADXTableMappingID` lives in a
repository file outside `src/` (only its callers are given).  The spec
fixes its behaviour: "five fields, pipe-delimited, parsed positionally;
malformed IDs (wrong field count) are a fatal parse error". -/
def parseADXTableMappingID (s : String) : Except String ADXTableMappingID :=
  let parts := splitPipeS s
  if parts.length = 5 then
    Except.ok ⟨parts.getD 0 "", parts.getD 1 "", parts.getD 2 "", parts.getD 3 "", parts.getD 4 ""⟩
  else Except.error (idErrMsg s)

/-- The ID written by Create/Update (line 121):
`fmt.Sprintf("%s|%s|%s|%s|%s", endpoint, database, table,
strings.ToLower(kind), name)`. -/
def formatADXTableMappingID (endpoint databaseName tableName kind name : String) : String :=
  endpoint ++ "|" ++ databaseName ++ "|" ++ tableName ++ "|" ++ toLowerGo kind ++ "|" ++ name

/-! ### The CRUD entry points -/

/-- Fatal diagnostics returned by the three entry points, carrying the
arguments of the corresponding `diag.Errorf` / `diag.FromErr` call. -/
inductive Diag where
  | fromErr (err : String) : Diag
  | errCreating (name tableName databaseName err : String) : Diag
  | errReading (name databaseName err : String) : Diag
  | errRow (err : String) : Diag
  | errDeleting (name tableName databaseName err : String) : Diag
deriving DecidableEq

/-- The schema-validated attribute bag read by Create/Update. -/
structure CreateConfig where
  name : String
  database_name : String
  table_name : String
  kind : String
  mapping : List MappingBlock
deriving DecidableEq

/-- Observable outcome of Create/Update and Delete: the management
command submitted (if any), the diagnostic returned (if any), and the
resource ID after the call (`d.Id()`; `newId = old id` when `SetId` was
not called). -/
structure OpOutcome where
  submitted : Option String
  diags : Option Diag
  newId : String
deriving DecidableEq

/-- Attributes set by a successful Read. -/
structure ReadAttrs where
  table_name : String
  database_name : String
  kind : String
  mapping : List MappingBlock
  last_updated_on : String
deriving DecidableEq

/-- Result of the Read entry point.  `panicOOB` marks the unguarded
`schemas[0]` access on an empty slice (line 164), which panics at run
time with an index-out-of-range fault. -/
inductive ReadResult where
  | diag (d : Diag) : ReadResult
  | panicOOB : ReadResult
  | ok (attrs : ReadAttrs) : ReadResult
deriving DecidableEq

structure ReadOutcome where
  submitted : Option String
  result : ReadResult
deriving DecidableEq

/-- The `resp.Do` row loop (lines 149-158): decode each returned row
into `TableMapping`, aborting with the first row's decode error.  Row
decoding itself (`row.ToStruct`) is external, so each row arrives as an
`Except`. -/
def collectRows : List (Except String TableMapping) → Except String (List TableMapping)
  | [] => Except.ok []
  | r :: rest =>
    match r with
    | Except.error e => Except.error e
    | Except.ok v => (collectRows rest).map (fun l => v :: l)

/-- `resourceADXTableMappingCreateUpdate` (lines 103-127).  `d_id` is
the resource ID before the call; `mgmt` is the management client's
response to the submitted command.  The trailing `Read` call (line 124)
is not composed in: its diagnostics are discarded by the source and it
never calls `SetId`, so it cannot affect this outcome. -/
def resourceADXTableMappingCreateUpdate (endpoint d_id : String) (cfg : CreateConfig)
    (mgmt : Except String Unit) : OpOutcome :=
  let mapping := expandTableMapping cfg.mapping
  let createStatement := ".create-or-alter table " ++ cfg.table_name ++ " ingestion "
    ++ toLowerGo cfg.kind ++ " mapping \x27" ++ cfg.name ++ "\x27 \x27[" ++ mapping ++ "]\x27"
  match mgmt with
  | Except.error e =>
    ⟨some createStatement, some (Diag.errCreating cfg.name cfg.table_name cfg.database_name e), d_id⟩
  | Except.ok _ =>
    ⟨some createStatement, none,
      formatADXTableMappingID endpoint cfg.database_name cfg.table_name cfg.kind cfg.name⟩

/-- `resourceADXTableMappingRead` (lines 129-172).  `mgmt` is the
management client's response to the `.show` command: an error, or the
rows of the result table. -/
def resourceADXTableMappingRead (idStr : String)
    (mgmt : Except String (List (Except String TableMapping))) : ReadOutcome :=
  match parseADXTableMappingID idStr with
  | Except.error e => ⟨none, ReadResult.diag (Diag.fromErr e)⟩
  | Except.ok id =>
    let showStatement := ".show table " ++ id.TableName ++ " ingestion "
      ++ toLowerGo id.Kind ++ " mapping \x27" ++ id.Name ++ "\x27"
    match mgmt with
    | Except.error e =>
      ⟨some showStatement, ReadResult.diag (Diag.errReading id.Name id.DatabaseName e)⟩
    | Except.ok rows =>
      match collectRows rows with
      | Except.error e => ⟨some showStatement, ReadResult.diag (Diag.errRow e)⟩
      | Except.ok schemas =>
        match schemas with
        | [] => ⟨some showStatement, ReadResult.panicOOB⟩
        | s :: _ =>
          ⟨some showStatement,
            ReadResult.ok ⟨s.Table, s.Database, s.Kind, flattenTableMapping s.Mapping,
              s.LastUpdatedOn⟩⟩

/-- `resourceADXTableMappingDelete` (lines 174-195). -/
def resourceADXTableMappingDelete (idStr : String) (mgmt : Except String Unit) : OpOutcome :=
  match parseADXTableMappingID idStr with
  | Except.error e => ⟨none, some (Diag.fromErr e), idStr⟩
  | Except.ok id =>
    let deleteStatement := ".drop table " ++ id.TableName ++ " ingestion "
      ++ toLowerGo id.Kind ++ " mapping \x27" ++ id.Name ++ "\x27"
    match mgmt with
    | Except.error e =>
      ⟨some deleteStatement, some (Diag.errDeleting id.Name id.TableName id.DatabaseName e), idStr⟩
    | Except.ok _ => ⟨some deleteStatement, none, ""⟩

/-! ### Schema validation of the `kind` attribute -/

/-- Modelled from the spec: the `stringInSlice` validator is defined in
a repository file outside `src/`.  The spec fixes its behaviour for the
`kind` attribute: "Kind value other than `Json` (case-insensitive) is
rejected at validation time before any command is constructed". -/
def stringInSlice (valid : List String) (v : String) : Bool :=
  valid.any (fun s => toLowerGo s == toLowerGo v)

/-- Modelled from the spec: the plugin SDK runs each attribute's
validator before the apply step, so a Create/Update with an invalid
`kind` is rejected before any command string is constructed or
submitted.  The schema (lines 61-68) attaches `stringInSlice ["Json"]`
to `kind`. -/
def createUpdateWithValidation (endpoint d_id : String) (cfg : CreateConfig)
    (mgmt : Except String Unit) : Except Diag OpOutcome :=
  if stringInSlice ["Json"] cfg.kind then
    Except.ok (resourceADXTableMappingCreateUpdate endpoint d_id cfg mgmt)
  else
    Except.error (Diag.fromErr ("expected kind to be one of [Json], got " ++ cfg.kind))

/-! ### Definitions used to state and prove the round-trip properties -/

/-- `s` contains no quote, no backslash and no control character (code
point below 0x20): exactly the strings that pass unescaped through
`expandTableMapping`'s hand-built output as valid JSON string
contents.  A quote or backslash would break the framing, and a raw
control character is a JSON syntax error (Go's scanner rejects it). -/
def jsonSafeField (s : String) : Prop :=
  '"' ∉ s.data ∧ '\\' ∉ s.data ∧ ∀ c ∈ s.data, 32 ≤ c.toNat

instance (s : String) : Decidable (jsonSafeField s) := by
  unfold jsonSafeField; infer_instance

/-- All four field values of a block are quote-, backslash- and
control-character-free. -/
def goodBlock (b : MappingBlock) : Prop :=
  jsonSafeField b.column ∧ jsonSafeField b.path ∧ jsonSafeField b.datatype ∧
    jsonSafeField (b.transform.getD "")

instance (b : MappingBlock) : Decidable (goodBlock b) := by
  unfold goodBlock; infer_instance

/-- The key/value pairs `expandEntry` prints for a block, in print
order. -/
def entryKVs (b : MappingBlock) : List (String × String) :=
  [("column", b.column), ("path", b.path), ("datatype", b.datatype)]
    ++ (match b.transform with
        | some t => if t.length ≠ 0 then [("transform", t)] else []
        | none => [])

/-- Characters of a printed JSON object member `"k":"v"`. -/
def printedFieldChars (kv : String × String) : List Char :=
  '"' :: kv.1.data ++ '"' :: ':' :: '"' :: kv.2.data ++ ['"']

/-- Join characters with comma separators. -/
def joinCharsComma : List (List Char) → List Char
  | [] => []
  | [a] => a
  | a :: b :: t => a ++ ',' :: joinCharsComma (b :: t)

/-- Characters of a printed JSON object with the given members. -/
def printedObjChars (kvs : List (String × String)) : List Char :=
  '\x7b' :: joinCharsComma (kvs.map printedFieldChars) ++ ['\x7d']

/-- The JSON value a printed member parses to. -/
def fieldJson (kv : String × String) : List Char × Json :=
  (kv.1.data, Json.str kv.2.data)

/-- The `Mapping` struct `json.Unmarshal` produces for a block's
printed object. -/
def mappingOfBlock (b : MappingBlock) : Mapping :=
  ⟨b.column, b.path, b.datatype, b.transform.getD ""⟩

/-- What a block looks like after a round trip through the server
representation: all four keys present, an absent transform read back as
the empty string. -/
def readBackBlock (b : MappingBlock) : MappingBlock :=
  ⟨b.column, b.path, b.datatype, some (b.transform.getD "")⟩

/-- Both components of a printed key/value pair are quote-, backslash-
and control-character-free. -/
def goodKV (kv : String × String) : Prop :=
  jsonSafeField kv.1 ∧ jsonSafeField kv.2

instance (kv : String × String) : Decidable (goodKV kv) := by
  unfold goodKV; infer_instance

deriving instance DecidableEq for Except

/-! ### General helper lemmas -/

theorem string_mk_data (s : String) : String.mk s.data = s := rfl

theorem string_length_eq_zero_iff (s : String) : s.length = 0 ↔ s = "" := by
  cases s with
  | mk d =>
    constructor
    · intro h
      have hd : d = [] := List.length_eq_zero.mp h
      rw [hd]
    · intro h
      rw [h]; rfl

theorem data_nonempty_length_ne_zero (s : String) (c : Char) (t : List Char)
    (h : s.data = c :: t) : s.length ≠ 0 := by
  intro h0
  have : s = "" := (string_length_eq_zero_iff s).mp h0
  rw [this] at h
  exact List.noConfusion h

/-! ### C5: empty mapping list -/

/-- C5: `expandTableMapping` applied to the empty list returns the
empty string, and `flattenTableMapping` applied to the empty string
returns the empty list. -/
theorem c5_empty_expand_flatten :
    expandTableMapping [] = "" ∧ flattenTableMapping "" = [] := ⟨rfl, rfl⟩

/-! ### C2: empty read result reaches the unguarded index -/

/-- C2: if the Read operation's `.show` command succeeds but returns
zero rows, the unguarded `schemas[0]` access is reached on an empty
slice — the Read path has no guard for an empty result set, so under
the precondition "response is empty and error-free" the out-of-bounds
index branch is taken. -/
theorem c2_empty_read_reaches_oob (idStr : String) (id : ADXTableMappingID)
    (h : parseADXTableMappingID idStr = Except.ok id) :
    (resourceADXTableMappingRead idStr (Except.ok [])).result = ReadResult.panicOOB := by
  unfold resourceADXTableMappingRead
  rw [h]
  rfl

theorem c2_empty_read_reaches_oob_witness :
    (resourceADXTableMappingRead "e|d|t|json|n" (Except.ok [])).result = ReadResult.panicOOB :=
  c2_empty_read_reaches_oob "e|d|t|json|n" ⟨"e", "d", "t", "json", "n"⟩ (by rfl)

/-! ### C8: error handling of Create/Update and Delete -/

/-- C8: when the management client returns an error, Create/Update
returns a fatal diagnostic carrying the name, table and database and
leaves the resource ID unchanged (so the ID is only set after a
successful command); Delete on client error returns a fatal diagnostic
and leaves the resource ID unchanged, clearing the ID to empty only
when the drop command succeeds. -/
theorem c8_error_handling :
    (∀ endpoint d_id cfg e,
      (resourceADXTableMappingCreateUpdate endpoint d_id cfg (Except.error e)).diags =
          some (Diag.errCreating cfg.name cfg.table_name cfg.database_name e) ∧
        (resourceADXTableMappingCreateUpdate endpoint d_id cfg (Except.error e)).newId = d_id) ∧
    (∀ endpoint d_id cfg,
      (resourceADXTableMappingCreateUpdate endpoint d_id cfg (Except.ok ())).newId =
          formatADXTableMappingID endpoint cfg.database_name cfg.table_name cfg.kind cfg.name ∧
        (resourceADXTableMappingCreateUpdate endpoint d_id cfg (Except.ok ())).diags = none) ∧
    (∀ idStr id e, parseADXTableMappingID idStr = Except.ok id →
      (resourceADXTableMappingDelete idStr (Except.error e)).diags =
          some (Diag.errDeleting id.Name id.TableName id.DatabaseName e) ∧
        (resourceADXTableMappingDelete idStr (Except.error e)).newId = idStr) ∧
    (∀ idStr id, parseADXTableMappingID idStr = Except.ok id →
      (resourceADXTableMappingDelete idStr (Except.ok ())).newId = "" ∧
        (resourceADXTableMappingDelete idStr (Except.ok ())).diags = none) := by
  refine ⟨fun _ _ _ _ => ⟨rfl, rfl⟩, fun _ _ _ => ⟨rfl, rfl⟩, ?_, ?_⟩
  · intro idStr id e h
    unfold resourceADXTableMappingDelete
    rw [h]
    exact ⟨rfl, rfl⟩
  · intro idStr id h
    unfold resourceADXTableMappingDelete
    rw [h]
    exact ⟨rfl, rfl⟩

theorem c8_error_handling_witness :
    (resourceADXTableMappingDelete "e|d|t|json|n" (Except.error "boom")).diags =
        some (Diag.errDeleting "n" "t" "d" "boom") ∧
      (resourceADXTableMappingDelete "e|d|t|json|n" (Except.error "boom")).newId =
        "e|d|t|json|n" :=
  c8_error_handling.2.2.1 "e|d|t|json|n" ⟨"e", "d", "t", "json", "n"⟩ "boom" (by rfl)

/-! ### C6: the three command templates -/

/-- C6: for all input attribute values, the command strings submitted
to the management client are exactly the `.create-or-alter`, `.show`
and `.drop` templates, with the kind field lowercased and the
mapping-json slot filled by `expandTableMapping`'s output wrapped in
brackets. -/
theorem c6_command_templates :
    (∀ endpoint d_id cfg mgmt,
      (resourceADXTableMappingCreateUpdate endpoint d_id cfg mgmt).submitted =
        some (".create-or-alter table " ++ cfg.table_name ++ " ingestion "
          ++ toLowerGo cfg.kind ++ " mapping \x27" ++ cfg.name ++ "\x27 \x27["
          ++ expandTableMapping cfg.mapping ++ "]\x27")) ∧
    (∀ idStr id mgmt, parseADXTableMappingID idStr = Except.ok id →
      (resourceADXTableMappingRead idStr mgmt).submitted =
        some (".show table " ++ id.TableName ++ " ingestion " ++ toLowerGo id.Kind
          ++ " mapping \x27" ++ id.Name ++ "\x27")) ∧
    (∀ idStr id mgmt, parseADXTableMappingID idStr = Except.ok id →
      (resourceADXTableMappingDelete idStr mgmt).submitted =
        some (".drop table " ++ id.TableName ++ " ingestion " ++ toLowerGo id.Kind
          ++ " mapping \x27" ++ id.Name ++ "\x27")) := by
  refine ⟨fun endpoint d_id cfg mgmt => ?_, fun idStr id mgmt h => ?_, fun idStr id mgmt h => ?_⟩
  · cases mgmt <;> rfl
  · unfold resourceADXTableMappingRead
    rw [h]
    cases mgmt with
    | error e => rfl
    | ok rows =>
      cases hcr : collectRows rows with
      | error e => simp [hcr]
      | ok schemas => cases schemas <;> simp [hcr]
  · unfold resourceADXTableMappingDelete
    rw [h]
    cases mgmt <;> rfl

theorem c6_command_templates_witness :
    (resourceADXTableMappingRead "e|d|t|json|n" (Except.error "boom")).submitted =
        some ".show table t ingestion json mapping \x27n\x27" ∧
      (resourceADXTableMappingDelete "e|d|t|json|n" (Except.ok ())).submitted =
        some ".drop table t ingestion json mapping \x27n\x27" :=
  ⟨(c6_command_templates.2.1 "e|d|t|json|n" ⟨"e", "d", "t", "json", "n"⟩
      (Except.error "boom") (by rfl)).trans (by decide),
    (c6_command_templates.2.2 "e|d|t|json|n" ⟨"e", "d", "t", "json", "n"⟩
      (Except.ok ()) (by rfl)).trans (by decide)⟩

/-! ### C9: kind validation -/

/-- C9: any `kind` value other than `Json`, compared case-insensitively,
is rejected by schema validation before any command string is
constructed or submitted, and a case-variant spelling such as `json` or
`JSON` passes validation and proceeds to Create/Update. -/
theorem c9_kind_validation :
    (∀ endpoint d_id cfg mgmt, toLowerGo cfg.kind ≠ "json" →
      createUpdateWithValidation endpoint d_id cfg mgmt =
        Except.error (Diag.fromErr ("expected kind to be one of [Json], got " ++ cfg.kind))) ∧
    (∀ endpoint d_id cfg mgmt, toLowerGo cfg.kind = "json" →
      createUpdateWithValidation endpoint d_id cfg mgmt =
        Except.ok (resourceADXTableMappingCreateUpdate endpoint d_id cfg mgmt)) := by
  constructor
  · intro endpoint d_id cfg mgmt h
    unfold createUpdateWithValidation stringInSlice
    have hJ : toLowerGo "Json" = "json" := rfl
    simp [hJ, beq_iff_eq]
    intro hc
    exact absurd hc.symm h
  · intro endpoint d_id cfg mgmt h
    unfold createUpdateWithValidation stringInSlice
    have hJ : toLowerGo "Json" = "json" := rfl
    simp [hJ, beq_iff_eq, h]

/-! ### Round-trip lemmas: the parser inverts the printed mapping output -/

theorem parseStringBody_printed (cs rest : List Char) (hq : '"' ∉ cs) (hb : '\\' ∉ cs)
    (hctl : ∀ c ∈ cs, 32 ≤ c.toNat) :
    parseStringBody (cs ++ '"' :: rest) = some (cs, rest) := by
  induction cs with
  | nil =>
    rw [parseStringBody.eq_def]
    simp
  | cons c t ih =>
    have hc1 : ¬ c = '"' := fun hc => hq (hc ▸ List.mem_cons_self c t)
    have hc2 : ¬ c = '\\' := fun hc => hb (hc ▸ List.mem_cons_self c t)
    have hc3 : ¬ c.toNat < 32 := by
      have := hctl c (List.mem_cons_self c t)
      omega
    have ht1 : '"' ∉ t := fun hm => hq (List.mem_cons_of_mem c hm)
    have ht2 : '\\' ∉ t := fun hm => hb (List.mem_cons_of_mem c hm)
    have ht3 : ∀ x ∈ t, 32 ≤ x.toNat := fun x hx => hctl x (List.mem_cons_of_mem c hx)
    rw [List.cons_append, parseStringBody.eq_def]
    simp [hc1, hc2, hc3, ih ht1 ht2 ht3]

theorem parseVal_str (v : String) (rest : List Char) (fuel : Nat)
    (hgood : jsonSafeField v) (hf : 1 ≤ fuel) :
    parseVal fuel ('"' :: (v.data ++ '"' :: rest)) = some (Json.str v.data, rest) := by
  obtain ⟨f, rfl⟩ : ∃ f, fuel = f + 1 := ⟨fuel - 1, by omega⟩
  rw [parseVal.eq_def]
  simp [skipWs, parseStringBody_printed v.data rest hgood.1 hgood.2.1 hgood.2.2]

/-! ### C3: resource ID round trip -/

theorem splitPipe_no_pipe (a : List Char) (h : '|' ∉ a) : splitPipe a = [a] := by
  induction a with
  | nil => rfl
  | cons c t ih =>
    have hc : ¬ c = '|' := fun hc => h (hc ▸ List.mem_cons_self c t)
    have ht : '|' ∉ t := fun hm => h (List.mem_cons_of_mem c hm)
    simp [splitPipe, hc, ih ht]

theorem splitPipe_append (a rest : List Char) (h : '|' ∉ a) :
    splitPipe (a ++ '|' :: rest) = a :: splitPipe rest := by
  induction a with
  | nil => simp [splitPipe]
  | cons c t ih =>
    have hc : ¬ c = '|' := fun hc => h (hc ▸ List.mem_cons_self c t)
    have ht : '|' ∉ t := fun hm => h (List.mem_cons_of_mem c hm)
    simp [splitPipe, hc, ih ht]

/-- C3: the resource ID produced by Create/Update is the five fields
joined by the pipe character with the kind lowercased, and parsing
recovers the five fields exactly — provided no field (nor the
lowercased kind) itself contains a pipe character; an ID whose
pipe-split has the wrong number of fields is a fatal parse error. -/
theorem c3_id_roundtrip :
    (∀ endpoint databaseName tableName kind name : String,
      '|' ∉ endpoint.data → '|' ∉ databaseName.data → '|' ∉ tableName.data →
      '|' ∉ (toLowerGo kind).data → '|' ∉ name.data →
      parseADXTableMappingID
          (formatADXTableMappingID endpoint databaseName tableName kind name) =
        Except.ok ⟨endpoint, databaseName, tableName, toLowerGo kind, name⟩) ∧
    (∀ s : String, (splitPipeS s).length ≠ 5 →
      parseADXTableMappingID s = Except.error (idErrMsg s)) := by
  constructor
  · intro e d t k n he hd ht hk hn
    have hp : ("|" : String).data = ['|'] := rfl
    have hdata : (formatADXTableMappingID e d t k n).data =
        e.data ++ '|' :: (d.data ++ '|' :: (t.data ++ '|' :: ((toLowerGo k).data
          ++ '|' :: n.data))) := by
      simp [formatADXTableMappingID, String.data_append, hp]
    unfold parseADXTableMappingID splitPipeS
    rw [hdata, splitPipe_append _ _ he, splitPipe_append _ _ hd, splitPipe_append _ _ ht,
      splitPipe_append _ _ hk, splitPipe_no_pipe _ hn]
    simp [List.getD, string_mk_data]
  · intro s h
    simp only [parseADXTableMappingID, if_neg h]

theorem c3_id_roundtrip_witness :
    parseADXTableMappingID
        (formatADXTableMappingID "https://c1.kusto.windows.net" "db1" "tbl1" "Json" "map1") =
      Except.ok ⟨"https://c1.kusto.windows.net", "db1", "tbl1", toLowerGo "Json", "map1"⟩ :=
  c3_id_roundtrip.1 "https://c1.kusto.windows.net" "db1" "tbl1" "Json" "map1"
    (by decide) (by decide) (by decide) (by decide) (by decide)

/-- C3 counterexample: when a field itself contains a pipe (here the
endpoint `"a|b"`), the formatted ID splits into more than five fields
and parsing does not recover the original fields. -/
theorem c3_counterexample :
    parseADXTableMappingID (formatADXTableMappingID "a|b" "db" "tbl" "Json" "m") ≠
      Except.ok ⟨"a|b", "db", "tbl", "json", "m"⟩ := by decide

/-! ### C7: flatten never fails -/

/-- C7: `flattenTableMapping` surfaces no error for any input: when the
embedded `json.Unmarshal` reports an error the error is discarded and
the output is just the re-emission of whatever slice value the decode
left behind (empty for syntax errors and non-array input, partially
zeroed for element-level type errors); in particular any input the
parser rejects outright flattens to the empty list. -/
theorem c7_flatten_discards_errors :
    (∀ s : String, s ≠ "" →
      (jsonUnmarshalMappings s).1 = true →
      flattenTableMapping s = ((jsonUnmarshalMappings s).2).map
        (fun v => ⟨v.Column, v.Path, v.DataType, some v.Transform⟩)) ∧
    (∀ s : String, parseVal (11 * (s.data.length + 1)) s.data = none →
      flattenTableMapping s = []) := by
  constructor
  · intro s hne _herr
    unfold flattenTableMapping
    rw [if_neg (fun h0 => hne ((string_length_eq_zero_iff s).mp h0))]
  · intro s hp
    unfold flattenTableMapping
    by_cases h0 : s.length = 0
    · rw [if_pos h0]
    · rw [if_neg h0]
      unfold jsonUnmarshalMappings
      rw [hp]
      rfl

theorem c7_flatten_discards_errors_witness :
    flattenTableMapping "xyz" = [] ∧ flattenTableMapping "not json" = [] :=
  ⟨c7_flatten_discards_errors.2 "xyz" (by rfl),
    c7_flatten_discards_errors.2 "not json" (by rfl)⟩

/-! ### C1 counterexample: flatten is not a left inverse of expand alone -/

/-- C1 counterexample, both failure modes of the claim.  First: for the
single entry `{column:"a", path:"$.a", datatype:"string", transform:""}`
— non-empty column/path/datatype, no quote or backslash anywhere —
`flattenTableMapping (expandTableMapping entries)` is the empty list,
not the original entries: the expansion lacks the surrounding array
brackets, so the decode fails and is discarded.  Second: even with the
brackets added, an entry whose column contains a raw control character
(here a tab, still quote- and backslash-free) is emitted unescaped,
`json.Unmarshal` rejects it as a syntax error, and flattening yields
the empty list again. -/
theorem c1_counterexample :
    (flattenTableMapping (expandTableMapping [⟨"a", "$.a", "string", some ""⟩]) = [] ∧
      ([] : List MappingBlock) ≠ [⟨"a", "$.a", "string", some ""⟩]) ∧
    (flattenTableMapping
        ("[" ++ expandTableMapping [⟨"x\ty", "$.x", "string", some ""⟩] ++ "]") = [] ∧
      ([] : List MappingBlock) ≠ [⟨"x\ty", "$.x", "string", some ""⟩]) := by
  refine ⟨⟨?_, ?_⟩, ?_, ?_⟩
  · decide
  · decide
  · decide
  · decide

theorem c9_kind_validation_witness :
    (createUpdateWithValidation "e" "" ⟨"n", "d", "t", "Csv", []⟩ (Except.ok ()) =
        Except.error (Diag.fromErr "expected kind to be one of [Json], got Csv")) ∧
      (createUpdateWithValidation "e" "" ⟨"n", "d", "t", "JSON", []⟩ (Except.ok ()) =
        Except.ok (resourceADXTableMappingCreateUpdate "e" "" ⟨"n", "d", "t", "JSON", []⟩
          (Except.ok ()))) :=
  ⟨c9_kind_validation.1 "e" "" ⟨"n", "d", "t", "Csv", []⟩ (Except.ok ()) (by decide),
    c9_kind_validation.2 "e" "" ⟨"n", "d", "t", "JSON", []⟩ (Except.ok ()) (by decide)⟩

theorem parseFields_printed (kvs : List (String × String)) (rest : List Char) (fuel : Nat)
    (hne : kvs ≠ []) (hgood : ∀ kv ∈ kvs, goodKV kv) (hf : 2 * kvs.length ≤ fuel) :
    parseFields fuel (joinCharsComma (kvs.map printedFieldChars) ++ '\x7d' :: rest) =
      some (kvs.map fieldJson, rest) := by
  induction kvs generalizing rest fuel with
  | nil => exact absurd rfl hne
  | cons kv t ih =>
    obtain ⟨f, rfl⟩ : ∃ f, fuel = f + 1 :=
      ⟨fuel - 1, by rw [List.length_cons] at hf; omega⟩
    have hkv : goodKV kv := hgood kv (List.mem_cons_self kv t)
    have hf1 : 1 ≤ f := by
      have h := hf
      rw [List.length_cons] at h
      omega
    have hps : ∀ tail, parseStringBody (kv.1.data ++ '"' :: tail) = some (kv.1.data, tail) :=
      fun tail => parseStringBody_printed kv.1.data tail hkv.1.1 hkv.1.2.1 hkv.1.2.2
    cases t with
    | nil =>
      rw [parseFields.eq_def]
      simp only [List.map_cons, List.map_nil, joinCharsComma, printedFieldChars,
        List.cons_append, List.append_assoc, List.singleton_append]
      simp [skipWs, hps, parseVal_str, hkv.2, hf1, fieldJson]
    | cons kv2 t2 =>
      have hlen : 2 * (kv2 :: t2).length ≤ f := by
        have h := hf
        rw [List.length_cons] at h
        omega
      have ht : ∀ x ∈ kv2 :: t2, goodKV x := fun x hx => hgood x (List.mem_cons_of_mem kv hx)
      have hih := ih rest f (List.cons_ne_nil kv2 t2) ht hlen
      rw [parseFields.eq_def]
      simp only [List.map_cons, joinCharsComma, printedFieldChars,
        List.cons_append, List.append_assoc, List.singleton_append]
      simp only [List.map_cons, joinCharsComma, printedFieldChars, List.cons_append,
        List.append_assoc, List.singleton_append] at hih
      simp [skipWs, hps, parseVal_str, hkv.2, hf1, fieldJson, hih]

set_option synthInstance.maxHeartbeats 1000000 in
theorem parseVal_printedObj (kvs : List (String × String)) (rest : List Char) (fuel : Nat)
    (hne : kvs ≠ []) (hgood : ∀ kv ∈ kvs, goodKV kv) (hf : 2 * kvs.length + 1 ≤ fuel) :
    parseVal fuel (printedObjChars kvs ++ rest) = some (Json.obj (kvs.map fieldJson), rest) := by
  obtain ⟨f, rfl⟩ : ∃ f, fuel = f + 1 := ⟨fuel - 1, by omega⟩
  have hlen : 2 * kvs.length ≤ f := by omega
  have hpf := parseFields_printed kvs rest f hne hgood hlen
  cases kvs with
  | nil => exact absurd rfl hne
  | cons kv t =>
    rw [parseVal.eq_def]
    cases t with
    | nil =>
      simp only [printedObjChars, List.map_cons, List.map_nil, joinCharsComma,
        printedFieldChars, List.cons_append, List.append_assoc, List.singleton_append,
        List.nil_append] at hpf ⊢
      simp [skipWs, hpf]
    | cons kv2 t2 =>
      simp only [printedObjChars, List.map_cons, joinCharsComma, printedFieldChars,
        List.cons_append, List.append_assoc, List.singleton_append, List.nil_append] at hpf ⊢
      simp [skipWs, hpf]

theorem parseElems_printedObjs (kvss : List (List (String × String))) (rest : List Char)
    (fuel : Nat) (hne : kvss ≠ [])
    (hgood : ∀ kvs ∈ kvss, kvs ≠ [] ∧ (∀ kv ∈ kvs, goodKV kv) ∧ kvs.length ≤ 4)
    (hf : 11 * kvss.length ≤ fuel) :
    parseElems fuel (joinCharsComma (kvss.map printedObjChars) ++ ']' :: rest) =
      some (kvss.map (fun kvs => Json.obj (kvs.map fieldJson)), rest) := by
  induction kvss generalizing rest fuel with
  | nil => exact absurd rfl hne
  | cons kvs t ih =>
    obtain ⟨f, rfl⟩ : ∃ f, fuel = f + 1 :=
      ⟨fuel - 1, by rw [List.length_cons] at hf; omega⟩
    have hk := hgood kvs (List.mem_cons_self kvs t)
    have hone : 2 * kvs.length + 1 ≤ f := by
      rw [List.length_cons] at hf
      omega
    rw [parseElems.eq_def]
    cases t with
    | nil =>
      have hpv := parseVal_printedObj kvs (']' :: rest) f hk.1 hk.2.1 hone
      simp only [List.map_cons, List.map_nil, joinCharsComma] at hpv ⊢
      simp [hpv, skipWs]
    | cons kvs2 t2 =>
      have hlen : 11 * (kvs2 :: t2).length ≤ f := by
        rw [List.length_cons] at hf
        omega
      have ht : ∀ x ∈ kvs2 :: t2, x ≠ [] ∧ (∀ kv ∈ x, goodKV kv) ∧ x.length ≤ 4 :=
        fun x hx => hgood x (List.mem_cons_of_mem kvs hx)
      have hih := ih rest f (List.cons_ne_nil kvs2 t2) ht hlen
      have hpv := parseVal_printedObj kvs
        (',' :: (joinCharsComma ((kvs2 :: t2).map printedObjChars) ++ ']' :: rest)) f
        hk.1 hk.2.1 hone
      simp only [List.map_cons, joinCharsComma, List.cons_append, List.append_assoc] at hpv hih ⊢
      simp [hpv, skipWs, hih]

theorem expandEntry_data (b : MappingBlock) :
    (expandEntry b).data = printedObjChars (entryKVs b) := by
  have h1 : ("\"column\":\"" : String).data =
    ['"', 'c', 'o', 'l', 'u', 'm', 'n', '"', ':', '"'] := rfl
  have h2 : ("\",\"path\":\"" : String).data =
    ['"', ',', '"', 'p', 'a', 't', 'h', '"', ':', '"'] := rfl
  have h3 : ("\",\"datatype\":\"" : String).data =
    ['"', ',', '"', 'd', 'a', 't', 'a', 't', 'y', 'p', 'e', '"', ':', '"'] := rfl
  have h4 : ("\"" : String).data = ['"'] := rfl
  have h5 : (",\"transform\":\"" : String).data =
    [',', '"', 't', 'r', 'a', 'n', 's', 'f', 'o', 'r', 'm', '"', ':', '"'] := rfl
  have h6 : ("\x7b" : String).data = ['\x7b'] := rfl
  have h7 : ("\x7d" : String).data = ['\x7d'] := rfl
  have hc : ("column" : String).data = ['c', 'o', 'l', 'u', 'm', 'n'] := rfl
  have hp : ("path" : String).data = ['p', 'a', 't', 'h'] := rfl
  have hd : ("datatype" : String).data = ['d', 'a', 't', 'a', 't', 'y', 'p', 'e'] := rfl
  have htr : ("transform" : String).data = ['t', 'r', 'a', 'n', 's', 'f', 'o', 'r', 'm'] := rfl
  cases htf : b.transform with
  | none =>
    simp [expandEntry, entryKVs, htf, printedObjChars, joinCharsComma, printedFieldChars,
      String.data_append, h1, h2, h3, h4, h6, h7, hc, hp, hd]
  | some t =>
    by_cases h0 : t.length ≠ 0
    · simp [expandEntry, entryKVs, htf, h0, printedObjChars, joinCharsComma, printedFieldChars,
        String.data_append, h1, h2, h3, h4, h5, h6, h7, hc, hp, hd, htr]
    · simp [expandEntry, entryKVs, htf, h0, printedObjChars, joinCharsComma, printedFieldChars,
        String.data_append, h1, h2, h3, h4, h6, h7, hc, hp, hd]

theorem goJoin_comma_data (l : List String) :
    (goJoin l ",").data = joinCharsComma (l.map String.data) := by
  induction l with
  | nil => rfl
  | cons a t ih =>
    cases t with
    | nil => rfl
    | cons b t2 =>
      have hcm : ("," : String).data = [','] := rfl
      rw [goJoin.eq_def]
      simp [joinCharsComma, String.data_append, hcm, ih]

theorem expandTableMapping_data (bs : List MappingBlock) (hne : bs ≠ []) :
    (expandTableMapping bs).data = joinCharsComma ((bs.map entryKVs).map printedObjChars) := by
  unfold expandTableMapping
  rw [if_neg (fun h => hne (List.length_eq_zero.mp h))]
  rw [goJoin_comma_data]
  rw [List.map_map, List.map_map]
  have hfe : (String.data ∘ expandEntry) = (printedObjChars ∘ entryKVs) := by
    funext x
    exact expandEntry_data x
  rw [hfe]

theorem decodeMappingObj_entry (b : MappingBlock) :
    decodeMappingObj ((entryKVs b).map fieldJson) = (mappingOfBlock b, false) := by
  have hc : ("column" : String).data = ['c', 'o', 'l', 'u', 'm', 'n'] := rfl
  have hp : ("path" : String).data = ['p', 'a', 't', 'h'] := rfl
  have hd : ("datatype" : String).data = ['d', 'a', 't', 'a', 't', 'y', 'p', 'e'] := rfl
  have htr : ("transform" : String).data = ['t', 'r', 'a', 'n', 's', 'f', 'o', 'r', 'm'] := rfl
  have e1 : asciiFoldEq ['c', 'o', 'l', 'u', 'm', 'n'] ['c', 'o', 'l', 'u', 'm', 'n'] = true := by
    decide
  have e2 : asciiFoldEq ['p', 'a', 't', 'h'] ['c', 'o', 'l', 'u', 'm', 'n'] = false := by decide
  have e3 : asciiFoldEq ['p', 'a', 't', 'h'] ['p', 'a', 't', 'h'] = true := by decide
  have e4 : asciiFoldEq ['d', 'a', 't', 'a', 't', 'y', 'p', 'e'] ['c', 'o', 'l', 'u', 'm', 'n']
      = false := by decide
  have e5 : asciiFoldEq ['d', 'a', 't', 'a', 't', 'y', 'p', 'e'] ['p', 'a', 't', 'h']
      = false := by decide
  have e6 : asciiFoldEq ['d', 'a', 't', 'a', 't', 'y', 'p', 'e']
      ['d', 'a', 't', 'a', 't', 'y', 'p', 'e'] = true := by decide
  have e7 : asciiFoldEq ['t', 'r', 'a', 'n', 's', 'f', 'o', 'r', 'm']
      ['c', 'o', 'l', 'u', 'm', 'n'] = false := by decide
  have e8 : asciiFoldEq ['t', 'r', 'a', 'n', 's', 'f', 'o', 'r', 'm'] ['p', 'a', 't', 'h']
      = false := by decide
  have e9 : asciiFoldEq ['t', 'r', 'a', 'n', 's', 'f', 'o', 'r', 'm']
      ['d', 'a', 't', 'a', 't', 'y', 'p', 'e'] = false := by decide
  have e10 : asciiFoldEq ['t', 'r', 'a', 'n', 's', 'f', 'o', 'r', 'm']
      ['t', 'r', 'a', 'n', 's', 'f', 'o', 'r', 'm'] = true := by decide
  cases htf : b.transform with
  | none =>
    simp [entryKVs, htf, fieldJson, decodeMappingObj, List.foldl, setMappingField,
      hc, hp, hd, e1, e2, e3, e4, e5, e6, string_mk_data, mappingOfBlock]
  | some t =>
    by_cases h0 : t.length ≠ 0
    · simp [entryKVs, htf, h0, fieldJson, decodeMappingObj, List.foldl, setMappingField,
        hc, hp, hd, htr, e1, e2, e3, e4, e5, e6, e7, e8, e9, e10, string_mk_data, mappingOfBlock]
    · have ht : t = "" := (string_length_eq_zero_iff t).mp (by omega)
      subst ht
      simp [entryKVs, htf, fieldJson, decodeMappingObj, List.foldl, setMappingField,
        hc, hp, hd, e1, e2, e3, e4, e5, e6, string_mk_data, mappingOfBlock]

theorem entryKVs_ne_nil (b : MappingBlock) : entryKVs b ≠ [] := by
  simp [entryKVs]

theorem entryKVs_length_le (b : MappingBlock) : (entryKVs b).length ≤ 4 := by
  cases htf : b.transform with
  | none => simp [entryKVs, htf]
  | some t =>
    by_cases h0 : t.length ≠ 0
    · simp [entryKVs, htf, h0]
    · simp [entryKVs, htf, h0]

theorem entryKVs_good (b : MappingBlock) (h : goodBlock b) :
    ∀ kv ∈ entryKVs b, goodKV kv := by
  intro kv hm
  have hkc : jsonSafeField "column" := by decide
  have hkp : jsonSafeField "path" := by decide
  have hkd : jsonSafeField "datatype" := by decide
  have hkt : jsonSafeField "transform" := by decide
  cases htf : b.transform with
  | none =>
    rw [entryKVs, htf] at hm
    simp at hm
    rcases hm with rfl | rfl | rfl
    · exact ⟨hkc, h.1⟩
    · exact ⟨hkp, h.2.1⟩
    · exact ⟨hkd, h.2.2.1⟩
  | some t =>
    have htq : jsonSafeField t := by
      have := h.2.2.2
      rw [htf] at this
      exact this
    rw [entryKVs, htf] at hm
    by_cases h0 : t.length ≠ 0
    · simp [h0] at hm
      rcases hm with rfl | rfl | rfl | rfl
      · exact ⟨hkc, h.1⟩
      · exact ⟨hkp, h.2.1⟩
      · exact ⟨hkd, h.2.2.1⟩
      · exact ⟨hkt, htq⟩
    · simp [h0] at hm
      rcases hm with rfl | rfl | rfl
      · exact ⟨hkc, h.1⟩
      · exact ⟨hkp, h.2.1⟩
      · exact ⟨hkd, h.2.2.1⟩

theorem joinCharsComma_length_ge (ls : List (List Char)) (h : ∀ x ∈ ls, 1 ≤ x.length) :
    ls.length ≤ (joinCharsComma ls).length := by
  induction ls with
  | nil => simp [joinCharsComma]
  | cons a t ih =>
    cases t with
    | nil =>
      have := h a (List.mem_cons_self a [])
      simp [joinCharsComma]
      omega
    | cons c t2 =>
      have ha := h a (List.mem_cons_self a (c :: t2))
      have hih := ih (fun x hx => h x (List.mem_cons_of_mem a hx))
      rw [joinCharsComma.eq_def]
      simp only [List.length_cons, List.length_append] at hih ⊢
      omega

theorem printedObjChars_length_ge (kvs : List (String × String)) :
    1 ≤ (printedObjChars kvs).length := by
  simp [printedObjChars]

theorem bracketed_data (bs : List MappingBlock) (hne : bs ≠ []) :
    ("[" ++ expandTableMapping bs ++ "]").data =
      '[' :: (joinCharsComma ((bs.map entryKVs).map printedObjChars) ++ ']' :: []) := by
  have hl : ("[" : String).data = ['['] := rfl
  have hr : ("]" : String).data = [']'] := rfl
  simp [String.data_append, hl, hr, expandTableMapping_data bs hne]

set_option synthInstance.maxHeartbeats 1000000 in
theorem unmarshal_printed (bs : List MappingBlock) (hne : bs ≠ [])
    (hgood : ∀ b ∈ bs, goodBlock b) :
    jsonUnmarshalMappings ("[" ++ expandTableMapping bs ++ "]") =
      (false, bs.map mappingOfBlock) := by
  have hdata := bracketed_data bs hne
  have hj : ∀ kvs ∈ bs.map entryKVs,
      kvs ≠ [] ∧ (∀ kv ∈ kvs, goodKV kv) ∧ kvs.length ≤ 4 := by
    intro kvs hk
    rw [List.mem_map] at hk
    obtain ⟨b, hb, rfl⟩ := hk
    exact ⟨entryKVs_ne_nil b, entryKVs_good b (hgood b hb), entryKVs_length_le b⟩
  have hjlen : (bs.map entryKVs).length ≤
      (joinCharsComma ((bs.map entryKVs).map printedObjChars)).length := by
    have := joinCharsComma_length_ge ((bs.map entryKVs).map printedObjChars) (by
      intro x hx
      rw [List.mem_map] at hx
      obtain ⟨kvs, hkvs, rfl⟩ := hx
      exact printedObjChars_length_ge kvs)
    simpa using this
  unfold jsonUnmarshalMappings
  rw [hdata]
  set J := joinCharsComma ((bs.map entryKVs).map printedObjChars) with hJ
  have hfuel : 11 * (('[' :: (J ++ ']' :: [])).length + 1) = (11 * J.length + 32) + 1 := by
    simp [List.length_cons, List.length_append]
    ring
  rw [hfuel, parseVal.eq_def]
  have hne2 : bs.map entryKVs ≠ [] := by
    intro hx
    exact hne (List.map_eq_nil_iff.mp hx)
  have hEbound : 11 * (bs.map entryKVs).length ≤ 11 * J.length + 32 := by
    have : (bs.map entryKVs).length ≤ J.length := hjlen
    omega
  have hpe := parseElems_printedObjs (bs.map entryKVs) [] (11 * J.length + 32) hne2 hj hEbound
  rw [← hJ] at hpe
  obtain ⟨X, hX⟩ : ∃ X, J = '\x7b' :: X := by
    rw [hJ]
    cases bs with
    | nil => exact absurd rfl hne
    | cons b0 t =>
      cases t with
      | nil => exact ⟨_, rfl⟩
      | cons b1 t2 => exact ⟨_, rfl⟩
  rw [hX] at hpe ⊢
  simp only [List.cons_append, List.nil_append, List.length_cons] at hpe ⊢
  simp [skipWs, hpe, decodeElem, List.map_map, List.any_map, Function.comp,
    decodeMappingObj_entry]

theorem flatten_expand_bracketed (bs : List MappingBlock) (hgood : ∀ b ∈ bs, goodBlock b) :
    flattenTableMapping ("[" ++ expandTableMapping bs ++ "]") = bs.map readBackBlock := by
  cases hbs : bs with
  | nil => decide
  | cons b0 t =>
    have hne : bs ≠ [] := by rw [hbs]; exact List.cons_ne_nil b0 t
    rw [← hbs]
    have hdata := bracketed_data bs hne
    unfold flattenTableMapping
    rw [if_neg (data_nonempty_length_ne_zero _ _ _ hdata)]
    rw [unmarshal_printed bs hne hgood]
    simp [List.map_map, Function.comp, mappingOfBlock, readBackBlock]

/-- C1 (amended): for every list of mapping entries whose column, path
and datatype values are non-empty and whose fields contain no quote,
backslash or control character (code point below 0x20), flattening the
bracket-wrapped expansion,
`flattenTableMapping ("[" ++ expandTableMapping entries ++ "]")` — the
form the Create/Update command actually submits — reproduces the same
entries in the same order (with an absent transform read back as the
empty string).  Without the added brackets the decode fails and
`flattenTableMapping (expandTableMapping entries)` is empty for any
non-empty list; a raw control character in a field likewise makes the
unescaped output a JSON syntax error. -/
theorem c1_bracketed_roundtrip (bs : List MappingBlock)
    (hgood : ∀ b ∈ bs, goodBlock b)
    (_hne : ∀ b ∈ bs, b.column ≠ "" ∧ b.path ≠ "" ∧ b.datatype ≠ "") :
    flattenTableMapping ("[" ++ expandTableMapping bs ++ "]") = bs.map readBackBlock :=
  flatten_expand_bracketed bs hgood

theorem c1_bracketed_roundtrip_witness :
    flattenTableMapping ("[" ++ expandTableMapping [⟨"a", "$.a", "string", some ""⟩] ++ "]") =
      [MappingBlock.mk "a" "$.a" "string" (some "")].map readBackBlock :=
  c1_bracketed_roundtrip [⟨"a", "$.a", "string", some ""⟩] (by decide) (by decide)

/-- C10 counterexample: the claim's precondition excludes only quotes
and backslashes, but an entry whose column holds a raw newline — quote-
and backslash-free — is emitted unescaped by `expandTableMapping`, so
`json.Unmarshal` rejects the bracket-wrapped expansion as a syntax
error and `flattenTableMapping` returns the empty list instead of the
entries. -/
theorem c10_counterexample :
    flattenTableMapping
        ("[" ++ expandTableMapping [⟨"a\nb", "$.a", "string", some ""⟩] ++ "]") = [] ∧
      ([] : List MappingBlock) ≠ [⟨"a\nb", "$.a", "string", some ""⟩] := by
  constructor
  · decide
  · decide

/-- C10 (amended): for every list of mapping entries whose field values
contain no quote, backslash or control character (code point below
0x20) — including entries whose column, path or datatype values are
empty strings — flattening the bracket-wrapped expansion reproduces the
entries in the same order with transform defaulting to the empty
string; the expansion itself starts with a brace, not a bracket, and
the brackets are added only in the Create/Update command template. -/
theorem c10_bracketed_roundtrip_and_brackets :
    (∀ bs : List MappingBlock, (∀ b ∈ bs, goodBlock b) →
      flattenTableMapping ("[" ++ expandTableMapping bs ++ "]") = bs.map readBackBlock) ∧
    (∀ bs : List MappingBlock, bs ≠ [] →
      (expandTableMapping bs).data.head? = some '\x7b') ∧
    (∀ endpoint d_id cfg mgmt,
      (resourceADXTableMappingCreateUpdate endpoint d_id cfg mgmt).submitted = some
        (".create-or-alter table " ++ cfg.table_name ++ " ingestion " ++ toLowerGo cfg.kind
          ++ " mapping \x27" ++ cfg.name ++ "\x27 \x27[" ++ expandTableMapping cfg.mapping
          ++ "]\x27")) := by
  refine ⟨flatten_expand_bracketed, ?_, ?_⟩
  · intro bs hne
    rw [expandTableMapping_data bs hne]
    cases bs with
    | nil => exact absurd rfl hne
    | cons b0 t =>
      cases t with
      | nil => simp [joinCharsComma, printedObjChars]
      | cons b1 t2 => simp [joinCharsComma, printedObjChars]
  · intro endpoint d_id cfg mgmt
    cases mgmt <;> rfl

theorem c10_bracketed_roundtrip_and_brackets_witness :
    flattenTableMapping ("[" ++ expandTableMapping
        [⟨"b", "$.b", "int", some "DateTimeFromUnixSeconds"⟩, ⟨"c", "$.c", "datetime", none⟩]
        ++ "]") =
      [MappingBlock.mk "b" "$.b" "int" (some "DateTimeFromUnixSeconds"),
        MappingBlock.mk "c" "$.c" "datetime" none].map readBackBlock :=
  c10_bracketed_roundtrip_and_brackets.1
    [⟨"b", "$.b", "int", some "DateTimeFromUnixSeconds"⟩, ⟨"c", "$.c", "datetime", none⟩]
    (by decide)

/-- C4: for every mapping entry, `expandTableMapping` emits the keys
column, path and datatype (quoted, in that order), and emits the
transform key exactly when the entry's transform value is a non-empty
string; in particular `{column:"a",path:"$.a",datatype:"string",transform:""}`
expands without a transform key and an entry with transform
`DateTimeFromUnixSeconds` expands with the transform key appended. -/
theorem c4_expand_entry_shape :
    (∀ (c p dt : String) (t : Option String),
      expandTableMapping [⟨c, p, dt, t⟩] =
        "\x7b\"column\":\"" ++ c ++ "\",\"path\":\"" ++ p ++ "\",\"datatype\":\"" ++ dt
          ++ "\"" ++ (if t.getD "" ≠ "" then ",\"transform\":\"" ++ t.getD "" ++ "\"" else "")
          ++ "\x7d") ∧
    (expandTableMapping [⟨"a", "$.a", "string", some ""⟩] =
      "\x7b\"column\":\"a\",\"path\":\"$.a\",\"datatype\":\"string\"\x7d") ∧
    (expandTableMapping [⟨"b", "$.b", "int", some "DateTimeFromUnixSeconds"⟩] =
      "\x7b\"column\":\"b\",\"path\":\"$.b\",\"datatype\":\"int\",\"transform\":\"DateTimeFromUnixSeconds\"\x7d") := by
  refine ⟨?_, by decide, by decide⟩
  intro c p dt t
  have hsingle : expandTableMapping [(⟨c, p, dt, t⟩ : MappingBlock)] =
      expandEntry ⟨c, p, dt, t⟩ := by
    simp [expandTableMapping, goJoin]
  rw [hsingle]
  apply String.ext
  rw [expandEntry_data]
  have hA : ("\x7b\"column\":\"" : String).data =
    ['\x7b', '"', 'c', 'o', 'l', 'u', 'm', 'n', '"', ':', '"'] := rfl
  have h2 : ("\",\"path\":\"" : String).data =
    ['"', ',', '"', 'p', 'a', 't', 'h', '"', ':', '"'] := rfl
  have h3 : ("\",\"datatype\":\"" : String).data =
    ['"', ',', '"', 'd', 'a', 't', 'a', 't', 'y', 'p', 'e', '"', ':', '"'] := rfl
  have h4 : ("\"" : String).data = ['"'] := rfl
  have h5 : (",\"transform\":\"" : String).data =
    [',', '"', 't', 'r', 'a', 'n', 's', 'f', 'o', 'r', 'm', '"', ':', '"'] := rfl
  have h7 : ("\x7d" : String).data = ['\x7d'] := rfl
  have hc : ("column" : String).data = ['c', 'o', 'l', 'u', 'm', 'n'] := rfl
  have hp : ("path" : String).data = ['p', 'a', 't', 'h'] := rfl
  have hd : ("datatype" : String).data = ['d', 'a', 't', 'a', 't', 'y', 'p', 'e'] := rfl
  have htr : ("transform" : String).data = ['t', 'r', 'a', 'n', 's', 'f', 'o', 'r', 'm'] := rfl
  cases t with
  | none =>
    simp [entryKVs, printedObjChars, joinCharsComma, printedFieldChars, String.data_append,
      hA, h2, h3, h4, h7, hc, hp, hd]
  | some t =>
    by_cases h0 : t = ""
    · subst h0
      simp [entryKVs, printedObjChars, joinCharsComma, printedFieldChars, String.data_append,
        hA, h2, h3, h4, h7, hc, hp, hd]
    · have hlen : t.length ≠ 0 := fun hl => h0 ((string_length_eq_zero_iff t).mp hl)
      simp [entryKVs, printedObjChars, joinCharsComma, printedFieldChars, String.data_append,
        hA, h2, h3, h4, h5, h7, hc, hp, hd, htr, hlen, h0]

end Adx
